import Mathlib

/-!
Verification of the staged bulk-load pipeline (`pandas2redshift`).

The development shallowly embeds `pandas2redshift/pandas2redshift.py`:

* pure string manipulation (storage-key construction, the COPY statement
  template and its `textwrap.dedent` post-processing, the pandas→warehouse
  type mapper) is embedded as executable Lean functions on `String` /
  `List Char`;
* the stateful pipeline (`upload_to_s3`, `delete_from_s3`, `copy`,
  `create_table`, `insert`) is embedded as explicit state passing over a
  `World` holding the warehouse catalog and the bucket contents, with an
  event trace recording which steps ran.  The external collaborators
  (object store, warehouse SQL engine, CSV serializer) are modelled after
  the design contract: CREATE TABLE without IF NOT EXISTS fails on an
  existing table, TRUNCATE fails on a missing table, COPY success is an
  oracle parameter, the bucket is a set of keys.

Text that in Python is a single string with embedded newlines is
represented as its list of lines (`List Char` per line); this is faithful
whenever the interpolated fragments are newline-free, which the theorems
hypothesise explicitly.
-/

namespace Pandas2Redshift

/-! ### Basic character/line helpers -/

/-- A line of text, as a list of characters. -/
abbrev Line := List Char

/-- The whitespace characters `textwrap.dedent` considers (space and tab). -/
def isWSChar (c : Char) : Bool := c = ' ' || c = '\t'

/-- A run of `n` spaces. -/
def sp (n : Nat) : Line := List.replicate n ' '

/-- Longest common prefix of two character lists.  `textwrap.dedent`'s margin
update (keep the margin if the new indent extends it, shrink to the indent if
the margin extends the indent, otherwise cut at the first mismatch) computes
exactly this. -/
def lcp : Line → Line → Line
  | a :: as, b :: bs => if a = b then a :: lcp as bs else []
  | _, _ => []

/-! ### `textwrap.dedent`, modelled on a list of lines -/

/-- Step 1 of `textwrap.dedent`: `_whitespace_only_re.sub('', text)` replaces
every line consisting solely of whitespace by the empty line. -/
def blankWSOnly (l : Line) : Line := if !l.isEmpty && l.all isWSChar then [] else l

/-- The leading whitespace run of a line. -/
def indentOf (l : Line) : Line := l.takeWhile isWSChar

/-- Whether a line contains a non-whitespace character (such lines, and only
such lines, contribute an indent to the margin computation). -/
def hasContent (l : Line) : Bool := !l.all isWSChar

/-- The common leading-whitespace margin of the lines that have content. -/
def marginOf (ls : List Line) : Line :=
  match (ls.filter hasContent).map indentOf with
  | [] => []
  | i :: is => is.foldl lcp i

/-- Step 3 of `textwrap.dedent`: `re.sub(r'(?m)^' + margin, '', text)` removes
the margin from every line that starts with it and leaves other lines
unchanged. -/
def stripRun (m : Line) (l : Line) : Line :=
  if l.take m.length = m then l.drop m.length else l

/-- Model of `textwrap.dedent`, acting on a text already split into lines. -/
def dedent (ls : List Line) : List Line :=
  let ls1 := ls.map blankWSOnly
  ls1.map (stripRun (marginOf ls1))

/-- Drop the leading whitespace of a line (used to compare the generated COPY
statement with its whitespace-insensitive SQL reading). -/
def trimLeft (l : Line) : Line := l.dropWhile isWSChar

/-! ### The COPY statement -/

/-- The default COPY options, verbatim from `DEFAULT_QUERY_ARGS`. -/
def DEFAULT_QUERY_ARGS : List String :=
  ["IGNOREHEADER 1",
   "FORMAT AS CSV",
   "DELIMITER ','",
   "EMPTYASNULL",
   "ACCEPTANYDATE",
   "DATEFORMAT 'auto'",
   "TIMEFORMAT 'auto'"]

/-- The lines of the formatted f-string inside `copy`, before `dedent`.  The
template is `"\n            COPY {schema}.{table_name}\n            FROM
'{bucket}/{path}'\n            {BREAK_LINE.join(query_args)}\n
ACCESS_KEY_ID '{ak}'\n            SECRET_ACCESS_KEY '{sk}'\n        "` with
`BREAK_LINE = "\n" + 4*" "`; splitting it on `'\n'` yields exactly this list
whenever the interpolated fragments are newline-free. -/
def fstringCopyLines (schema table_name aws_bucket_name aws_bucket_path : String)
    (query_args : List String) (aws_access_key aws_secret_key : String) : List Line :=
  [[],
   sp 12 ++ ("COPY " ++ schema ++ "." ++ table_name).data,
   sp 12 ++ ("FROM '" ++ aws_bucket_name ++ "/" ++ aws_bucket_path ++ "'").data]
  ++ (match query_args with
      | [] => [sp 12]
      | q :: qs => (sp 12 ++ q.data) :: qs.map (fun a => sp 4 ++ a.data))
  ++ [sp 12 ++ ("ACCESS_KEY_ID '" ++ aws_access_key ++ "'").data,
      sp 12 ++ ("SECRET_ACCESS_KEY '" ++ aws_secret_key ++ "'").data,
      sp 8]

/-- The COPY statement executed by `copy`: the dedented template, re-joined
with newlines. -/
def COPY_QUERY (schema table_name aws_bucket_name aws_bucket_path : String)
    (query_args : List String) (aws_access_key aws_secret_key : String) : String :=
  ⟨List.intercalate ['\n']
    (dedent (fstringCopyLines schema table_name aws_bucket_name aws_bucket_path
      query_args aws_access_key aws_secret_key))⟩

/-! ### Storage-key construction -/

/-- Whether a path starts with the separator, as `b.startswith(sep)` in
`posixpath.join`. -/
def startsWithSep (s : String) : Bool := s.data.head? = some '/'

/-- Whether a path ends with the separator, as `path.endswith(sep)` in
`posixpath.join`. -/
def endsWithSep (s : String) : Bool := s.data.getLast? = some '/'

/-- Model of `os.path.join(a, b)` (POSIX): `b` if it is absolute; `a + b` if `a` is
empty or already ends with the separator; otherwise `a + '/' + b`. -/
def os_path_join (a b : String) : String :=
  if startsWithSep b then b
  else if a = "" || endsWithSep a then a ++ b
  else a ++ "/" ++ b

/-- Embedding of `_create_bucket_path` inside `upload_to_s3`: the key is
`f"{table_name}-{uuid4().hex}"`, with the bucket root joined in front exactly
when it is truthy (non-`None` and non-empty).  The random suffix is passed in
as a parameter. -/
def create_bucket_path (table_name : String) (bucket_root : Option String)
    (suffix : String) : String :=
  let bucket_table_name := table_name ++ "-" ++ suffix
  match bucket_root with
  | some root => if root ≠ "" then os_path_join root bucket_table_name else bucket_table_name
  | none => bucket_table_name

/-! ### The type mapper -/

/-- Lookup table `DTYPE_MAPPING`, verbatim from `pandas_to_redshift_datatypes`. -/
def DTYPE_MAPPING : List (String × String) :=
  [("int64", "BIGINT"),
   ("int32", "INTEGER"),
   ("float64", "DOUBLE PRECISION"),
   ("float32", "REAL"),
   ("object", "VARCHAR(MAX)"),
   ("bool", "BOOLEAN"),
   ("datetime64[ns]", "TIMESTAMP"),
   ("timedelta[ns]", "INTERVAL"),
   ("category", "VARCHAR(MAX)"),
   ("datetime64[ns, UTC]", "TIMESTAMPTZ")]

/-- Embedding of `DTYPE_MAPPING.get(str(dtype), "VARCHAR(MAX)")`. -/
def dtypeGet (dtype : String) : String := (DTYPE_MAPPING.lookup dtype).getD "VARCHAR(MAX)"

/-- Embedding of `pandas_to_redshift_datatypes`: map every column's native type tag through
the lookup table, defaulting to `VARCHAR(MAX)`.  The schema dictionary is
embedded as an ordered association list. -/
def pandas_to_redshift_datatypes (dataframe_schema : List (String × String)) :
    List (String × String) :=
  dataframe_schema.map (fun p => (p.1, dtypeGet p.2))

/-- The type a column receives according to the specification's own wording
(recognized tags to their documented warehouse types, anything else to the
maximum-width text type); stated independently of the source's lookup table so
the two can be compared. -/
def specDatatypeFor (dtype : String) : String :=
  if dtype = "int64" then "BIGINT"
  else if dtype = "int32" then "INTEGER"
  else if dtype = "float64" then "DOUBLE PRECISION"
  else if dtype = "float32" then "REAL"
  else if dtype = "bool" then "BOOLEAN"
  else if dtype = "datetime64[ns]" then "TIMESTAMP"
  else if dtype = "datetime64[ns, UTC]" then "TIMESTAMPTZ"
  else if dtype = "timedelta[ns]" then "INTERVAL"
  else "VARCHAR(MAX)"

/-! ### The staged object wire format -/

/-- Models the serializer used by `upload_to_s3` (`data.to_csv(index=False)`)
per the wire-format contract: first line the comma-separated column names,
each subsequent line the comma-separated field values of one row. -/
def to_csv (cols : List Line) (rows : List (List Line)) : List Char :=
  List.intercalate ['\n']
    (List.intercalate [','] cols :: rows.map (fun r => List.intercalate [','] r))

/-- Re-parse the staged text: split into lines, split every line on the
delimiter; the first line is the header, the rest are the rows. -/
def parse_csv (text : List Char) : List Line × List (List Line) :=
  match (text.splitOn '\n').map (fun l => l.splitOn ',') with
  | [] => ([], [])
  | header :: rest => (header, rest)

/-! ### Collaborator state model -/

/-- The error classes of the design's taxonomy that the embedded pipeline can
surface. -/
inductive Err
  | tableMissing
  | schemaError
  | loadError
deriving DecidableEq

/-- The warehouse catalog: which schemas and which `(schema, table)` pairs
exist. -/
structure Warehouse where
  schemas : List String
  tables : List (String × String)
deriving DecidableEq

/-- The full external state: warehouse catalog plus the keys present in the
staging bucket. -/
structure World where
  db : Warehouse
  bucket : List String
deriving DecidableEq

/-- Trace events recording which pipeline steps executed (successfully). -/
inductive Event
  | truncated (schema table_name : String)
  | schemaEnsured (schema : String)
  | tableCreated (schema table_name : String) (cols : List (String × String))
  | staged (key : String)
  | copied (query : String)
  | unstaged (key : String)
deriving DecidableEq

/-- Models the warehouse executing `TRUNCATE TABLE schema.table`: fails with a
table-missing error when the table does not exist. -/
def execTruncate (db : Warehouse) (schema table_name : String) : Option Err × Warehouse :=
  if (schema, table_name) ∈ db.tables then (none, db) else (some Err.tableMissing, db)

/-- Models the warehouse executing `CREATE SCHEMA IF NOT EXISTS schema`:
always succeeds, adding the schema only when absent. -/
def execCreateSchema (db : Warehouse) (schema : String) : Option Err × Warehouse :=
  (none,
   { db with schemas := if schema ∈ db.schemas then db.schemas else db.schemas ++ [schema] })

/-- Models the warehouse executing the generated `CREATE TABLE` statement,
which carries no IF NOT EXISTS guard: it fails when the column list is empty
(degenerate statement) or when the table already exists, and otherwise adds
the table. -/
def execCreateTable (db : Warehouse) (schema table_name : String)
    (cols : List (String × String)) : Option Err × Warehouse :=
  if cols = [] then (some Err.schemaError, db)
  else if (schema, table_name) ∈ db.tables then (some Err.schemaError, db)
  else (none, { db with tables := db.tables ++ [(schema, table_name)] })

/-- Models the warehouse executing the COPY statement: whether the load is
accepted is an oracle parameter (malformed rows, type mismatches and
permission failures are outside the embedded state). -/
def execCopyStmt (copyOk : Bool) (db : Warehouse) : Option Err × Warehouse :=
  if copyOk then (none, db) else (some Err.loadError, db)

/-- Models the object store upload: the bucket is a set of keys. -/
def s3Put (bucket : List String) (key : String) : List String :=
  if key ∈ bucket then bucket else bucket ++ [key]

/-- Models `delete_objects` on a single key: the key is removed from the
bucket. -/
def s3Delete (bucket : List String) (key : String) : List String :=
  bucket.filter (fun k => k ≠ key)

/-- Result of a pipeline invocation: the first failing step's error (if any),
the final external state, and the trace of completed steps. -/
structure Outcome where
  err : Option Err
  world : World
  events : List Event
deriving DecidableEq

/-! ### The pipeline functions -/

/-- Embedding of `upload_to_s3`: build the bucket path and upload the serialized data,
returning the path.  The random suffix is a parameter; credentials have no
semantic effect on the embedded state and are omitted. -/
def upload_to_s3 (w : World) (table_name : String) (aws_bucket_root : Option String)
    (suffix : String) : World × String × List Event :=
  let bucket_path := create_bucket_path table_name aws_bucket_root suffix
  ({ w with bucket := s3Put w.bucket bucket_path }, bucket_path, [Event.staged bucket_path])

/-- Embedding of `delete_from_s3`: delete the object at `file_path` from the bucket. -/
def delete_from_s3 (w : World) (file_path : String) : World × List Event :=
  ({ w with bucket := s3Delete w.bucket file_path }, [Event.unstaged file_path])

/-- Embedding of `copy`: upload the data, execute the COPY statement, and delete the staged
object; the delete runs only after a COPY that did not raise, and a COPY
failure propagates with the staged object left in place. -/
def copy (copyOk : Bool) (suffix : String) (w : World) (table_name schema : String)
    (aws_access_key aws_secret_key aws_bucket_name : String) (query_args : List String)
    (aws_bucket_root : Option String) : Outcome :=
  match upload_to_s3 w table_name aws_bucket_root suffix with
  | (w1, aws_bucket_path, ev1) =>
    match execCopyStmt copyOk w1.db with
    | (some e, db1) => { err := some e, world := { w1 with db := db1 }, events := ev1 }
    | (none, db1) =>
      match delete_from_s3 { w1 with db := db1 } aws_bucket_path with
      | (w2, ev2) =>
        { err := none
          world := w2
          events := ev1
            ++ [Event.copied (COPY_QUERY schema table_name aws_bucket_name aws_bucket_path
                  query_args aws_access_key aws_secret_key)]
            ++ ev2 }

/-- Embedding of `create_table`: execute `CREATE SCHEMA IF NOT EXISTS schema`, then the
unconditional `CREATE TABLE schema.table (col type, ...)`. -/
def create_table (db : Warehouse) (table_name schema : String)
    (data_types : List (String × String)) : Option Err × Warehouse × List Event :=
  match execCreateSchema db schema with
  | (some e, db1) => (some e, db1, [])
  | (none, db1) =>
    match execCreateTable db1 schema table_name data_types with
    | (some e, db2) => (some e, db2, [Event.schemaEnsured schema])
    | (none, db2) => (none, db2, [Event.schemaEnsured schema, Event.tableCreated schema table_name data_types])

/-- Python truthiness of the optional `table_data_types` dictionary: falsy for
`None` and for the empty dictionary. -/
def truthyDict (d : Option (List (String × String))) : Bool :=
  match d with
  | none => false
  | some l => !l.isEmpty

/-- Embedding of `_exists` inside `insert`: catalog inspection for the table. -/
def tableExists (db : Warehouse) (table_name schema : String) : Bool :=
  db.tables.contains (schema, table_name)

/-- Embedding of `insert`: optional TRUNCATE, optional existence check and creation (with
explicit column types when the supplied dictionary is truthy, otherwise types
inferred from the dataset's dtypes), then `copy`.  Each step runs only when
all previous steps succeeded, and the first failure is returned. -/
def insert (copyOk : Bool) (suffix : String) (w : World)
    (data_dtypes : List (String × String)) (table_name schema : String)
    (aws_access_key aws_secret_key aws_bucket_name : String) (query_args : List String)
    (aws_bucket_root : Option String) (ensure_exists truncate_table : Bool)
    (table_data_types : Option (List (String × String))) : Outcome :=
  match (if truncate_table then execTruncate w.db schema table_name else (none, w.db)) with
  | (some e, db1) => { err := some e, world := { w with db := db1 }, events := [] }
  | (none, db1) =>
    let w1 : World := { w with db := db1 }
    let ev1 : List Event := if truncate_table then [Event.truncated schema table_name] else []
    match (if ensure_exists && !tableExists w1.db table_name schema then
            create_table w1.db table_name schema
              (if truthyDict table_data_types then table_data_types.getD []
               else pandas_to_redshift_datatypes data_dtypes)
           else (none, w1.db, [])) with
    | (some e, db2, ev2) => { err := some e, world := { w1 with db := db2 }, events := ev1 ++ ev2 }
    | (none, db2, ev2) =>
      let o := copy copyOk suffix { w1 with db := db2 } table_name schema
        aws_access_key aws_secret_key aws_bucket_name query_args aws_bucket_root
      { err := o.err, world := o.world, events := ev1 ++ ev2 ++ o.events }

/-! ### Helper lemmas -/

theorem takeWhile_append_of_all {p : Char → Bool} {l1 : Line} (l2 : Line)
    (h : ∀ a ∈ l1, p a = true) : (l1 ++ l2).takeWhile p = l1 ++ l2.takeWhile p := by
  induction l1 with
  | nil => simp
  | cons a t ih =>
    have ha : p a = true := h a (List.mem_cons_self a t)
    simp only [List.cons_append, List.takeWhile_cons, ha, if_true]
    rw [ih (fun x hx => h x (List.mem_cons_of_mem a hx))]

theorem dropWhile_append_of_all {p : Char → Bool} {l1 : Line} (l2 : Line)
    (h : ∀ a ∈ l1, p a = true) : (l1 ++ l2).dropWhile p = l2.dropWhile p := by
  induction l1 with
  | nil => simp
  | cons a t ih =>
    have ha : p a = true := h a (List.mem_cons_self a t)
    simp only [List.cons_append, List.dropWhile_cons, ha, if_true]
    exact ih (fun x hx => h x (List.mem_cons_of_mem a hx))

theorem dropWhile_eq_self_of_takeWhile_eq_nil {p : Char → Bool} {l : Line}
    (h : l.takeWhile p = []) : l.dropWhile p = l := by
  cases l with
  | nil => rfl
  | cons a t =>
    simp only [List.takeWhile_cons] at h
    by_cases ha : p a
    · simp [ha] at h
    · simp [List.dropWhile_cons, ha]

theorem mem_sp_isWSChar {n : Nat} {c : Char} (h : c ∈ sp n) : isWSChar c = true := by
  rw [List.eq_of_mem_replicate h]; rfl

theorem all_sp (n : Nat) : (sp n).all isWSChar = true := by
  rw [List.all_eq_true]; exact fun c hc => mem_sp_isWSChar hc

theorem takeWhile_ws_of_cons {c : Char} {t : Line} (hc : isWSChar c = false) :
    (c :: t).takeWhile isWSChar = [] := by
  simp [List.takeWhile_cons, hc]

theorem indentOf_sp_append {l : Line} (n : Nat) (h : l.takeWhile isWSChar = []) :
    indentOf (sp n ++ l) = sp n := by
  unfold indentOf
  rw [takeWhile_append_of_all l (fun a ha => mem_sp_isWSChar ha), h, List.append_nil]

theorem trimLeft_sp_append {l : Line} (n : Nat) (h : l.takeWhile isWSChar = []) :
    trimLeft (sp n ++ l) = l := by
  unfold trimLeft
  rw [dropWhile_append_of_all l (fun a ha => mem_sp_isWSChar ha),
    dropWhile_eq_self_of_takeWhile_eq_nil h]

theorem hasContent_sp_append {l : Line} (n : Nat) (hne : l ≠ [])
    (h : l.takeWhile isWSChar = []) : hasContent (sp n ++ l) = true := by
  cases l with
  | nil => exact absurd rfl hne
  | cons c t =>
    simp only [List.takeWhile_cons] at h
    by_cases hc : isWSChar c
    · simp [hc] at h
    · simp [hasContent, List.all_append, all_sp, List.all_cons, Bool.not_eq_true] at hc ⊢
      exact Or.inl hc

theorem blankWSOnly_of_hasContent {l : Line} (h : hasContent l = true) :
    blankWSOnly l = l := by
  unfold blankWSOnly
  unfold hasContent at h
  have : l.all isWSChar = false := by
    cases hx : l.all isWSChar
    · rfl
    · rw [hx] at h; simp at h
  simp [this]

theorem stripRun_sp_sp {k n : Nat} (l : Line) (h : k ≤ n) :
    stripRun (sp k) (sp n ++ l) = sp (n - k) ++ l := by
  unfold stripRun sp
  have hlen : k ≤ (List.replicate n ' ').length := by simpa using h
  rw [List.length_replicate, List.take_append_of_le_length hlen,
    List.drop_append_of_le_length hlen, List.take_replicate, List.drop_replicate]
  simp [Nat.min_eq_left h]

theorem stripRun_nil {m : Line} (hm : m ≠ []) : stripRun m [] = [] := by
  unfold stripRun
  have : ([] : Line).take m.length = [] := by simp
  rw [this, if_neg (fun hc => hm hc.symm)]

theorem foldl_lcp_eq_of_forall {m : Line} {l : List Line}
    (h : ∀ x ∈ l, lcp m x = m) : l.foldl lcp m = m := by
  induction l with
  | nil => rfl
  | cons a t ih =>
    have ha := h a (List.mem_cons_self a t)
    simp only [List.foldl_cons, ha]
    exact ih (fun x hx => h x (List.mem_cons_of_mem a hx))

theorem append_right_inj (r : String) {a b : String} (h : r ++ a = r ++ b) : a = b := by
  apply String.ext
  have hd : (r ++ a).data = (r ++ b).data := by rw [h]
  rw [String.data_append, String.data_append] at hd
  exact List.append_cancel_left hd

theorem startsWithSep_dash_suffix (t s1 s2 : String) :
    startsWithSep (t ++ "-" ++ s1) = startsWithSep (t ++ "-" ++ s2) := by
  unfold startsWithSep
  rw [String.data_append, String.data_append, String.data_append, String.data_append]
  have hne : t.data ++ ("-" : String).data ≠ [] := by
    intro hc
    have := List.append_eq_nil.mp hc
    simp [show ("-" : String).data = ['-'] from rfl] at this
  rw [List.head?_append_of_ne_nil _ hne, List.head?_append_of_ne_nil _ hne]

theorem os_path_join_inj (r : String) {n1 n2 : String}
    (hs : startsWithSep n1 = startsWithSep n2) (h : os_path_join r n1 = os_path_join r n2) :
    n1 = n2 := by
  unfold os_path_join at h
  by_cases hb : startsWithSep n1 = true
  · rw [hb] at hs
    rw [if_pos hb, if_pos hs.symm] at h
    exact h
  · have hb1 : startsWithSep n1 = false := by simpa using hb
    have hb2 : startsWithSep n2 = false := by rw [← hs]; exact hb1
    rw [hb1, hb2] at h
    simp only [Bool.false_eq_true, if_false] at h
    by_cases hc : (decide (r = "") || endsWithSep r) = true
    · rw [if_pos hc, if_pos hc] at h
      exact append_right_inj r h
    · rw [if_neg hc, if_neg hc] at h
      exact append_right_inj (r ++ "/") (by simpa [String.append_assoc] using h)

theorem name_inj {t s1 s2 : String} (h : t ++ "-" ++ s1 = t ++ "-" ++ s2) : s1 = s2 :=
  append_right_inj (t ++ "-") h

theorem create_bucket_path_none (t s : String) :
    create_bucket_path t none s = t ++ "-" ++ s := rfl

theorem create_bucket_path_some_empty (t s : String) :
    create_bucket_path t (some "") s = t ++ "-" ++ s := by
  simp [create_bucket_path]

theorem create_bucket_path_some {t s r : String} (hr : r ≠ "") :
    create_bucket_path t (some r) s = os_path_join r (t ++ "-" ++ s) := by
  simp [create_bucket_path, hr]

theorem dtypeGet_eq_specDatatypeFor (d : String) : dtypeGet d = specDatatypeFor d := by
  by_cases h1 : d = "int64"
  · subst h1; decide
  by_cases h2 : d = "int32"
  · subst h2; decide
  by_cases h3 : d = "float64"
  · subst h3; decide
  by_cases h4 : d = "float32"
  · subst h4; decide
  by_cases h5 : d = "object"
  · subst h5; decide
  by_cases h6 : d = "bool"
  · subst h6; decide
  by_cases h7 : d = "datetime64[ns]"
  · subst h7; decide
  by_cases h8 : d = "timedelta[ns]"
  · subst h8; decide
  by_cases h9 : d = "category"
  · subst h9; decide
  by_cases h10 : d = "datetime64[ns, UTC]"
  · subst h10; decide
  have e1 : (d == "int64") = false := beq_eq_false_iff_ne.mpr h1
  have e2 : (d == "int32") = false := beq_eq_false_iff_ne.mpr h2
  have e3 : (d == "float64") = false := beq_eq_false_iff_ne.mpr h3
  have e4 : (d == "float32") = false := beq_eq_false_iff_ne.mpr h4
  have e5 : (d == "object") = false := beq_eq_false_iff_ne.mpr h5
  have e6 : (d == "bool") = false := beq_eq_false_iff_ne.mpr h6
  have e7 : (d == "datetime64[ns]") = false := beq_eq_false_iff_ne.mpr h7
  have e8 : (d == "timedelta[ns]") = false := beq_eq_false_iff_ne.mpr h8
  have e9 : (d == "category") = false := beq_eq_false_iff_ne.mpr h9
  have e10 : (d == "datetime64[ns, UTC]") = false := beq_eq_false_iff_ne.mpr h10
  simp [dtypeGet, DTYPE_MAPPING, specDatatypeFor, List.lookup,
    e1, e2, e3, e4, e5, e6, e7, e8, e9, e10,
    h1, h2, h3, h4, h5, h6, h7, h8, h9, h10]

theorem blankWSOnly_nil : blankWSOnly [] = [] := rfl

theorem hasContent_nil : hasContent [] = false := rfl

theorem line_facts (n : Nat) {l : Line} (hne : l ≠ []) (htw : l.takeWhile isWSChar = []) :
    blankWSOnly (sp n ++ l) = sp n ++ l
      ∧ hasContent (sp n ++ l) = true
      ∧ indentOf (sp n ++ l) = sp n
      ∧ trimLeft (sp n ++ l) = l :=
  ⟨blankWSOnly_of_hasContent (hasContent_sp_append n hne htw),
   hasContent_sp_append n hne htw, indentOf_sp_append n htw, trimLeft_sp_append n htw⟩

theorem dedent_copy_shape (a b c d q : Line) (qs : List Line)
    (ha : a ≠ []) (ha2 : a.takeWhile isWSChar = [])
    (hb : b ≠ []) (hb2 : b.takeWhile isWSChar = [])
    (hc : c ≠ []) (hc2 : c.takeWhile isWSChar = [])
    (hd : d ≠ []) (hd2 : d.takeWhile isWSChar = [])
    (hq : q ≠ []) (hq2 : q.takeWhile isWSChar = [])
    (hqs : ∀ x ∈ qs, x ≠ [] ∧ x.takeWhile isWSChar = []) :
    (dedent ([[], sp 12 ++ a, sp 12 ++ b]
        ++ ((sp 12 ++ q) :: qs.map (fun x => sp 4 ++ x))
        ++ [sp 12 ++ c, sp 12 ++ d, sp 8])).map trimLeft
      = [[], a, b] ++ (q :: qs) ++ [c, d, []] := by
  obtain ⟨ea, ka, ia, ta⟩ := line_facts 12 ha ha2
  obtain ⟨eb, kb, ib, tb⟩ := line_facts 12 hb hb2
  obtain ⟨ec, kc, ic, tc⟩ := line_facts 12 hc hc2
  obtain ⟨ed, kd, id2, td⟩ := line_facts 12 hd hd2
  obtain ⟨eq1, kq, iq, tq⟩ := line_facts 12 hq hq2
  have e8 : blankWSOnly (sp 8) = [] := by decide
  have hmapq : (qs.map (fun x => sp 4 ++ x)).map blankWSOnly = qs.map (fun x => sp 4 ++ x) := by
    rw [List.map_map]
    exact List.map_congr_left (fun x hx =>
      (line_facts 4 (hqs x hx).1 (hqs x hx).2).1)
  have hls1 : ([[], sp 12 ++ a, sp 12 ++ b]
        ++ ((sp 12 ++ q) :: qs.map (fun x => sp 4 ++ x))
        ++ [sp 12 ++ c, sp 12 ++ d, sp 8]).map blankWSOnly
      = [[], sp 12 ++ a, sp 12 ++ b]
        ++ ((sp 12 ++ q) :: qs.map (fun x => sp 4 ++ x))
        ++ [sp 12 ++ c, sp 12 ++ d, []] := by
    simp only [List.map_append, List.map_cons, List.map_nil, blankWSOnly_nil,
      ea, eb, ec, ed, eq1, e8, hmapq]
  have l12 : lcp (sp 12) (sp 12) = sp 12 := by decide
  have l124 : lcp (sp 12) (sp 4) = sp 4 := by decide
  have l44 : lcp (sp 4) (sp 4) = sp 4 := by decide
  have l412 : lcp (sp 4) (sp 12) = sp 4 := by decide
  have hiq4 : (qs.map (fun x => sp 4 ++ x)).map indentOf = qs.map (fun _ => sp 4) := by
    rw [List.map_map]
    exact List.map_congr_left (fun x hx => indentOf_sp_append 4 (hqs x hx).2)
  have hfq : (qs.map (fun x => sp 4 ++ x)).filter hasContent = qs.map (fun x => sp 4 ++ x) :=
    List.filter_eq_self.mpr (fun x hx => by
      rcases List.mem_map.mp hx with ⟨y, hy, hxy⟩
      subst hxy
      exact hasContent_sp_append 4 (hqs y hy).1 (hqs y hy).2)
  simp only [dedent, hls1]
  cases qs with
  | nil =>
    have hm : marginOf ([[], sp 12 ++ a, sp 12 ++ b]
        ++ ((sp 12 ++ q) :: List.map (fun x => sp 4 ++ x) [])
        ++ [sp 12 ++ c, sp 12 ++ d, []]) = sp 12 := by
      unfold marginOf
      simp only [List.map_nil, List.cons_append, List.nil_append, List.append_nil,
        List.filter_cons, List.filter_nil, ka, kb, kq, kc, kd, hasContent_nil,
        if_true, if_false, Bool.false_eq_true, List.map_cons,
        ia, ib, iq, ic, id2, List.foldl_cons, List.foldl_nil, l12]
    rw [hm]
    have s12 : ∀ (x : Line), x.takeWhile isWSChar = [] →
        trimLeft (stripRun (sp 12) (sp 12 ++ x)) = x := by
      intro x hx
      rw [stripRun_sp_sp x (by norm_num)]
      show trimLeft (sp 0 ++ x) = x
      rw [show sp 0 = ([] : Line) from rfl, List.nil_append]
      exact dropWhile_eq_self_of_takeWhile_eq_nil hx
    have snil : trimLeft (stripRun (sp 12) []) = [] := by
      rw [stripRun_nil (by decide)]
      rfl
    simp only [List.map_nil, List.cons_append, List.nil_append, List.append_nil,
      List.map_cons, List.map_map, Function.comp_def]
    rw [snil, s12 a ha2, s12 b hb2, s12 q hq2, s12 c hc2, s12 d hd2]
  | cons q2 qs2 =>
    have hq2f := hqs q2 (List.mem_cons_self q2 qs2)
    have hqs2 : ∀ x ∈ qs2, x ≠ [] ∧ x.takeWhile isWSChar = [] :=
      fun x hx => hqs x (List.mem_cons_of_mem q2 hx)
    have hm : marginOf ([[], sp 12 ++ a, sp 12 ++ b]
        ++ ((sp 12 ++ q) :: List.map (fun x => sp 4 ++ x) (q2 :: qs2))
        ++ [sp 12 ++ c, sp 12 ++ d, []]) = sp 4 := by
      unfold marginOf
      simp only [List.map_cons, List.cons_append, List.nil_append, List.append_nil,
        List.filter_cons, List.filter_append, List.filter_nil, ka, kb, kq, kc, kd,
        hasContent_nil, hasContent_sp_append 4 hq2f.1 hq2f.2,
        List.filter_eq_self.mpr (fun x hx => by
          rcases List.mem_map.mp hx with ⟨y, hy, hxy⟩
          subst hxy
          exact hasContent_sp_append 4 (hqs2 y hy).1 (hqs2 y hy).2),
        if_true, if_false, Bool.false_eq_true,
        List.map_append, List.map_cons,
        ia, ib, iq, ic, id2, indentOf_sp_append 4 hq2f.2,
        List.map_map, Function.comp_def, List.map_nil]
      rw [List.map_congr_left (fun x hx => indentOf_sp_append 4 (hqs2 x hx).2)]
      simp only [List.foldl_cons, List.foldl_append, List.foldl_nil, l12, l124]
      rw [foldl_lcp_eq_of_forall (fun x hx => by
        rcases List.mem_map.mp hx with ⟨y, hy, hxy⟩
        subst hxy
        exact l44)]
      simp only [List.foldl_cons, List.foldl_nil, l412]
    rw [hm]
    have s12 : ∀ (x : Line), x.takeWhile isWSChar = [] →
        trimLeft (stripRun (sp 4) (sp 12 ++ x)) = x := by
      intro x hx
      rw [stripRun_sp_sp x (by norm_num)]
      show trimLeft (sp 8 ++ x) = x
      exact trimLeft_sp_append 8 hx
    have s4 : ∀ (x : Line), x.takeWhile isWSChar = [] →
        trimLeft (stripRun (sp 4) (sp 4 ++ x)) = x := by
      intro x hx
      rw [stripRun_sp_sp x (by norm_num)]
      show trimLeft (sp 0 ++ x) = x
      rw [show sp 0 = ([] : Line) from rfl, List.nil_append]
      exact dropWhile_eq_self_of_takeWhile_eq_nil hx
    have snil : trimLeft (stripRun (sp 4) []) = [] := by
      rw [stripRun_nil (by decide)]
      rfl
    simp only [List.map_cons, List.cons_append, List.nil_append, List.append_nil,
      List.map_append, List.map_map, Function.comp_def]
    rw [snil, s12 a ha2, s12 b hb2, s12 q hq2, s12 c hc2, s12 d hd2, s4 q2 hq2f.2]
    rw [List.map_congr_left (fun x hx => s4 x (hqs2 x hx).2)]
    simp



theorem data_cons_of_append {p : String} {c : Char} {t : Line} (hp : p.data = c :: t)
    (r : String) : ∃ t2, (p ++ r).data = c :: t2 :=
  ⟨t ++ r.data, by rw [String.data_append, hp, List.cons_append]⟩

theorem line_head_facts {s : String} {c : Char} {t : Line} (h : s.data = c :: t)
    (hc : isWSChar c = false) : s.data ≠ [] ∧ s.data.takeWhile isWSChar = [] := by
  rw [h]
  exact ⟨by simp, takeWhile_ws_of_cons hc⟩

theorem copy_query_trimmed_lines (schema table_name aws_bucket_name aws_bucket_path
      aws_access_key aws_secret_key : String) (q : String) (qs : List String)
    (hargs : ∀ a ∈ q :: qs,
      a.data ≠ [] ∧ a.data.takeWhile isWSChar = [] ∧ '\n' ∉ a.data) :
    (dedent (fstringCopyLines schema table_name aws_bucket_name aws_bucket_path
        (q :: qs) aws_access_key aws_secret_key)).map trimLeft
      = [[], ("COPY " ++ schema ++ "." ++ table_name).data,
          ("FROM '" ++ aws_bucket_name ++ "/" ++ aws_bucket_path ++ "'").data]
        ++ (q :: qs).map String.data
        ++ [("ACCESS_KEY_ID '" ++ aws_access_key ++ "'").data,
            ("SECRET_ACCESS_KEY '" ++ aws_secret_key ++ "'").data, []] := by
  obtain ⟨tc1, hc1⟩ := data_cons_of_append
    (show ("COPY " : String).data = 'C' :: "OPY ".data from rfl) schema
  obtain ⟨tc2, hc2⟩ := data_cons_of_append hc1 "."
  obtain ⟨tc3, hc3⟩ := data_cons_of_append hc2 table_name
  have hA := line_head_facts hc3 (by decide)
  obtain ⟨tf1, hf1⟩ := data_cons_of_append
    (show ("FROM '" : String).data = 'F' :: "ROM '".data from rfl) aws_bucket_name
  obtain ⟨tf2, hf2⟩ := data_cons_of_append hf1 "/"
  obtain ⟨tf3, hf3⟩ := data_cons_of_append hf2 aws_bucket_path
  obtain ⟨tf4, hf4⟩ := data_cons_of_append hf3 "'"
  have hB := line_head_facts hf4 (by decide)
  obtain ⟨tk1, hk1⟩ := data_cons_of_append
    (show ("ACCESS_KEY_ID '" : String).data = 'A' :: "CCESS_KEY_ID '".data from rfl)
    aws_access_key
  obtain ⟨tk2, hk2⟩ := data_cons_of_append hk1 "'"
  have hC := line_head_facts hk2 (by decide)
  obtain ⟨ts1, hs1⟩ := data_cons_of_append
    (show ("SECRET_ACCESS_KEY '" : String).data = 'S' :: "ECRET_ACCESS_KEY '".data from rfl)
    aws_secret_key
  obtain ⟨ts2, hs2⟩ := data_cons_of_append hs1 "'"
  have hD := line_head_facts hs2 (by decide)
  have hmapconv : (qs.map (fun a => sp 4 ++ a.data))
      = (qs.map String.data).map (fun x => sp 4 ++ x) := by
    rw [List.map_map]
    rfl
  show (dedent ([[], sp 12 ++ ("COPY " ++ schema ++ "." ++ table_name).data,
      sp 12 ++ ("FROM '" ++ aws_bucket_name ++ "/" ++ aws_bucket_path ++ "'").data]
    ++ ((sp 12 ++ q.data) :: qs.map (fun a => sp 4 ++ a.data))
    ++ [sp 12 ++ ("ACCESS_KEY_ID '" ++ aws_access_key ++ "'").data,
        sp 12 ++ ("SECRET_ACCESS_KEY '" ++ aws_secret_key ++ "'").data,
        sp 8])).map trimLeft = _
  rw [hmapconv]
  have hq := hargs q (List.mem_cons_self q qs)
  exact dedent_copy_shape _ _ _ _ _ _ hA.1 hA.2 hB.1 hB.2 hC.1 hC.2 hD.1 hD.2
    hq.1 hq.2.1 (fun x hx => by
      rcases List.mem_map.mp hx with ⟨y, hy, hxy⟩
      subst hxy
      exact ⟨(hargs y (List.mem_cons_of_mem q hy)).1,
        (hargs y (List.mem_cons_of_mem q hy)).2.1⟩)

/-! ### C4: totality, order preservation and value mapping of the type mapper -/

/-- C4: `pandas_to_redshift_datatypes` returns a mapping with exactly the same
column names in the same order, never omitting a column; each recognized
native type tag maps to its documented warehouse type and every unrecognized
tag maps to `VARCHAR(MAX)` (the right-hand side `specDatatypeFor` spells out
the documented case table independently of the source's lookup dictionary). -/
theorem c4_type_mapper_total (dataframe_schema : List (String × String)) :
    (pandas_to_redshift_datatypes dataframe_schema).map Prod.fst
        = dataframe_schema.map Prod.fst
    ∧ (pandas_to_redshift_datatypes dataframe_schema).length = dataframe_schema.length
    ∧ pandas_to_redshift_datatypes dataframe_schema
        = dataframe_schema.map (fun p => (p.1, specDatatypeFor p.2)) := by
  refine ⟨?_, ?_, ?_⟩
  · simp [pandas_to_redshift_datatypes]
  · simp [pandas_to_redshift_datatypes]
  · unfold pandas_to_redshift_datatypes
    exact List.map_congr_left (fun p _ => by rw [dtypeGet_eq_specDatatypeFor])

/-! ### C7: shape of the storage key -/

/-- C7 (counterexample): the claim reads the key as `root_prefix` + `/` +
`table_name-suffix` whenever a root is supplied; but a supplied empty root is
falsy in the code, so the key carries no root component at all. -/
theorem c7_counterexample :
    create_bucket_path "t" (some "") "abc" = "t-abc"
      ∧ create_bucket_path "t" (some "") "abc" ≠ "" ++ "/" ++ ("t" ++ "-" ++ "abc") := by
  constructor
  · rfl
  · decide

/-- C7 (amended): the key is `root/table_name-suffix` when the supplied root
is non-empty, does not already end with the path separator, and the
`table_name-suffix` part does not begin with the separator; with an absent or
empty root the key is exactly `table_name-suffix` with no root component. -/
theorem c7_key_shape (t suffix r : String) (hr : r ≠ "")
    (hre : endsWithSep r = false)
    (hts : startsWithSep (t ++ "-" ++ suffix) = false) :
    create_bucket_path t (some r) suffix = r ++ "/" ++ (t ++ "-" ++ suffix)
      ∧ create_bucket_path t (some "") suffix = t ++ "-" ++ suffix
      ∧ create_bucket_path t none suffix = t ++ "-" ++ suffix := by
  refine ⟨?_, create_bucket_path_some_empty t suffix, rfl⟩
  rw [create_bucket_path_some hr]
  unfold os_path_join
  rw [if_neg (by simp [hts]), if_neg (by simp [hr, hre])]

/-- Witness for C7 (amended) at a concrete root, table name and suffix. -/
theorem c7_key_shape_witness :
    create_bucket_path "tbl" (some "root") "abc" = "root" ++ "/" ++ ("tbl" ++ "-" ++ "abc")
      ∧ create_bucket_path "tbl" (some "") "abc" = "tbl" ++ "-" ++ "abc"
      ∧ create_bucket_path "tbl" none "abc" = "tbl" ++ "-" ++ "abc" :=
  c7_key_shape "tbl" "abc" "root" (by decide) (by decide) (by decide)

/-! ### C8: distinct suffixes give distinct keys -/

/-- C8: two invocations of the stager with the same table name and bucket root
but distinct random suffixes always produce distinct storage keys. -/
theorem c8_key_uniqueness (t : String) (root : Option String) {s1 s2 : String}
    (hne : s1 ≠ s2) :
    create_bucket_path t root s1 ≠ create_bucket_path t root s2 := by
  intro h
  apply hne
  cases root with
  | none =>
    rw [create_bucket_path_none, create_bucket_path_none] at h
    exact name_inj h
  | some r =>
    by_cases hr : r = ""
    · subst hr
      rw [create_bucket_path_some_empty, create_bucket_path_some_empty] at h
      exact name_inj h
    · rw [create_bucket_path_some hr, create_bucket_path_some hr] at h
      exact name_inj (os_path_join_inj r (startsWithSep_dash_suffix t s1 s2) h)

/-- Witness for C8 at two concrete distinct suffixes. -/
theorem c8_key_uniqueness_witness :
    create_bucket_path "tbl" (some "root") "aaa" ≠ create_bucket_path "tbl" (some "root") "bbb" :=
  c8_key_uniqueness "tbl" (some "root") (by decide)

/-! ### C1: the staged object is deleted iff COPY succeeds -/

/-- C1: for every invocation of `copy`, the staged object is deleted exactly
when the COPY statement executes successfully: after a successful COPY the
unstage step runs and the staged key is no longer present in the bucket, and
when the COPY execution raises, the error propagates, the delete step is
skipped, and the staged key remains in the bucket. -/
theorem c1_cleanup_iff_copy_success (suffix : String) (w : World)
    (table_name schema aws_access_key aws_secret_key aws_bucket_name : String)
    (query_args : List String) (aws_bucket_root : Option String) :
    let key := create_bucket_path table_name aws_bucket_root suffix
    let oS := copy true suffix w table_name schema aws_access_key aws_secret_key
      aws_bucket_name query_args aws_bucket_root
    let oF := copy false suffix w table_name schema aws_access_key aws_secret_key
      aws_bucket_name query_args aws_bucket_root
    oS.err = none
      ∧ key ∉ oS.world.bucket
      ∧ oS.events = [Event.staged key,
          Event.copied (COPY_QUERY schema table_name aws_bucket_name key query_args
            aws_access_key aws_secret_key),
          Event.unstaged key]
      ∧ oF.err = some Err.loadError
      ∧ key ∈ oF.world.bucket
      ∧ oF.events = [Event.staged key] := by
  refine ⟨rfl, ?_, rfl, rfl, ?_, rfl⟩
  · show create_bucket_path table_name aws_bucket_root suffix
      ∉ s3Delete (s3Put w.bucket (create_bucket_path table_name aws_bucket_root suffix))
          (create_bucket_path table_name aws_bucket_root suffix)
    simp [s3Delete, List.mem_filter]
  · show create_bucket_path table_name aws_bucket_root suffix
      ∈ s3Put w.bucket (create_bucket_path table_name aws_bucket_root suffix)
    unfold s3Put
    split
    · assumption
    · simp

/-! ### C2: truncating a missing table aborts before staging -/

/-- C2: `insert` with `truncate_table=True` against a non-existent table fails
at the truncation step with the table-missing error, the external state is
completely unchanged (in particular nothing was uploaded to storage), and no
downstream step (existence check, creation, staging, COPY, delete) executes:
the event trace is empty. -/
theorem c2_truncate_missing_table_aborts (copyOk : Bool) (suffix : String) (w : World)
    (data_dtypes : List (String × String)) (table_name schema : String)
    (aws_access_key aws_secret_key aws_bucket_name : String) (query_args : List String)
    (aws_bucket_root : Option String) (ensure_exists : Bool)
    (table_data_types : Option (List (String × String)))
    (habs : (schema, table_name) ∉ w.db.tables) :
    insert copyOk suffix w data_dtypes table_name schema aws_access_key aws_secret_key
        aws_bucket_name query_args aws_bucket_root ensure_exists true table_data_types
      = { err := some Err.tableMissing, world := w, events := [] } := by
  simp [insert, execTruncate, habs]

/-- Witness for C2: a concrete world with no tables. -/
theorem c2_truncate_missing_table_aborts_witness :
    insert true "suf" ⟨⟨[], []⟩, []⟩ [] "tbl" "sch" "ak" "sk" "bkt" [] none false true none
      = { err := some Err.tableMissing, world := ⟨⟨[], []⟩, []⟩, events := [] } :=
  c2_truncate_missing_table_aborts true "suf" ⟨⟨[], []⟩, []⟩ [] "tbl" "sch" "ak" "sk" "bkt"
    [] none false none (by decide)

/-! ### C5: guards of `create_table` -/

/-- C5: `create_table` fails with the schema error both when the table already
exists (the table-creation statement carries no IF NOT EXISTS guard, so it
never silently succeeds or overwrites: the catalog's table list is unchanged)
and when the column-types mapping is empty (degenerate CREATE TABLE); the
schema-creation step itself never fails, makes the schema present, and is
idempotent. -/
theorem c5_create_table_guards (db : Warehouse) (table_name schema : String)
    (data_types : List (String × String)) :
    ((schema, table_name) ∈ db.tables →
        (create_table db table_name schema data_types).1 = some Err.schemaError
          ∧ (create_table db table_name schema data_types).2.1.tables = db.tables)
    ∧ (data_types = [] →
        (create_table db table_name schema data_types).1 = some Err.schemaError
          ∧ (create_table db table_name schema data_types).2.1.tables = db.tables)
    ∧ (execCreateSchema db schema).1 = none
    ∧ schema ∈ (execCreateSchema db schema).2.schemas
    ∧ execCreateSchema (execCreateSchema db schema).2 schema
        = (none, (execCreateSchema db schema).2) := by
  refine ⟨?_, ?_, rfl, ?_, ?_⟩
  · intro hmem
    by_cases hd : data_types = [] <;>
      simp [create_table, execCreateSchema, execCreateTable, hd, hmem]
  · intro hd
    simp [create_table, execCreateSchema, execCreateTable, hd]
  · show schema ∈ (if schema ∈ db.schemas then db.schemas else db.schemas ++ [schema])
    split
    · assumption
    · simp
  · unfold execCreateSchema
    by_cases hs : schema ∈ db.schemas <;> simp [hs]

/-- Witness for C5 at a world whose table already exists and an empty
column-types mapping. -/
theorem c5_create_table_guards_witness :
    (create_table ⟨[], [("sch", "tbl")]⟩ "tbl" "sch" []).1 = some Err.schemaError
      ∧ (create_table ⟨[], [("sch", "tbl")]⟩ "tbl" "sch" []).2.1.tables = [("sch", "tbl")] := by
  have h := c5_create_table_guards ⟨[], [("sch", "tbl")]⟩ "tbl" "sch" []
  exact ⟨(h.1 (by decide)).1, (h.2.1 rfl).2⟩

/-! ### C6: explicit column types take precedence -/

/-- C6: `insert` with `ensure_exists=True` against an absent table and a
non-empty explicit `table_data_types` mapping creates the table with exactly
the caller-supplied column-to-type mapping; the dataset's own native column
types are ignored (two invocations differing only in the dataset's dtypes
produce identical outcomes, and no creation event with any other column list
occurs). -/
theorem c6_explicit_types_take_precedence (copyOk : Bool) (suffix : String) (w : World)
    (d1 d2 : List (String × String)) (table_name schema : String)
    (aws_access_key aws_secret_key aws_bucket_name : String) (query_args : List String)
    (aws_bucket_root : Option String) (l : List (String × String))
    (habs : (schema, table_name) ∉ w.db.tables) (hl : l ≠ []) :
    Event.tableCreated schema table_name l
        ∈ (insert copyOk suffix w d1 table_name schema aws_access_key aws_secret_key
            aws_bucket_name query_args aws_bucket_root true false (some l)).events
    ∧ (∀ cols, Event.tableCreated schema table_name cols
          ∈ (insert copyOk suffix w d1 table_name schema aws_access_key aws_secret_key
              aws_bucket_name query_args aws_bucket_root true false (some l)).events
          → cols = l)
    ∧ insert copyOk suffix w d1 table_name schema aws_access_key aws_secret_key
          aws_bucket_name query_args aws_bucket_root true false (some l)
        = insert copyOk suffix w d2 table_name schema aws_access_key aws_secret_key
            aws_bucket_name query_args aws_bucket_root true false (some l) := by
  have hmemF : tableExists w.db table_name schema = false := by
    simp [tableExists, habs]
  have hle : l.isEmpty = false := by simpa [List.isEmpty_iff] using hl
  cases copyOk <;>
    refine ⟨?_, ?_, ?_⟩ <;>
      simp [insert, hmemF, truthyDict, hle, create_table, execCreateSchema, execCreateTable,
        hl, habs, copy, upload_to_s3, delete_from_s3, execCopyStmt, s3Put, s3Delete]

/-- Witness for C6: `table_data_types={"id": "INTEGER"}` creates `id INTEGER`
even though the dataset column is `int64`. -/
theorem c6_explicit_types_take_precedence_witness :
    Event.tableCreated "sch" "tbl" [("id", "INTEGER")]
      ∈ (insert true "suf" ⟨⟨[], []⟩, []⟩ [("id", "int64")] "tbl" "sch" "ak" "sk" "bkt"
          [] none true false (some [("id", "INTEGER")])).events :=
  (c6_explicit_types_take_precedence true "suf" ⟨⟨[], []⟩, []⟩ [("id", "int64")]
    [("id", "int64")] "tbl" "sch" "ak" "sk" "bkt" [] none [("id", "INTEGER")]
    (by decide) (by decide)).1

/-! ### C10: an explicit empty mapping is not honored -/

/-- C10: because the precedence check tests Python truthiness rather than
presence, `insert` called with `table_data_types={}` behaves exactly as if no
explicit mapping had been supplied, falling back to inferring column types
from the dataset's own native types; in particular, against an absent table
with `ensure_exists=True` the creation event carries the inferred mapping. -/
theorem c10_empty_types_dict_falls_back (copyOk : Bool) (suffix : String) (w : World)
    (data_dtypes : List (String × String)) (table_name schema : String)
    (aws_access_key aws_secret_key aws_bucket_name : String) (query_args : List String)
    (aws_bucket_root : Option String) (ensure_exists truncate_table : Bool) :
    insert copyOk suffix w data_dtypes table_name schema aws_access_key aws_secret_key
        aws_bucket_name query_args aws_bucket_root ensure_exists truncate_table (some [])
      = insert copyOk suffix w data_dtypes table_name schema aws_access_key aws_secret_key
          aws_bucket_name query_args aws_bucket_root ensure_exists truncate_table none
    ∧ ((schema, table_name) ∉ w.db.tables → data_dtypes ≠ [] →
        Event.tableCreated schema table_name (pandas_to_redshift_datatypes data_dtypes)
          ∈ (insert copyOk suffix w data_dtypes table_name schema aws_access_key
              aws_secret_key aws_bucket_name query_args aws_bucket_root true false
              (some [])).events) := by
  constructor
  · simp [insert, truthyDict]
  · intro habs hdd
    have hmemF : tableExists w.db table_name schema = false := by
      simp [tableExists, habs]
    have hinf : pandas_to_redshift_datatypes data_dtypes ≠ [] := by
      simpa [pandas_to_redshift_datatypes] using hdd
    simp [insert, hmemF, truthyDict, create_table, execCreateSchema, execCreateTable,
      hinf, habs]

/-- Witness for C10: with `table_data_types={}`, an `int64` column is created
as `BIGINT`, the inferred type. -/
theorem c10_empty_types_dict_falls_back_witness :
    Event.tableCreated "sch" "tbl" (pandas_to_redshift_datatypes [("id", "int64")])
      ∈ (insert true "suf" ⟨⟨[], []⟩, []⟩ [("id", "int64")] "tbl" "sch" "ak" "sk" "bkt"
          [] none true false (some [])).events :=
  (c10_empty_types_dict_falls_back true "suf" ⟨⟨[], []⟩, []⟩ [("id", "int64")] "tbl" "sch"
    "ak" "sk" "bkt" [] none true false).2 (by decide) (by decide)

/-! ### C9: staging round-trip -/

theorem intercalate_cons_cons (x a b : Line) (l : List Line) :
    List.intercalate x (a :: b :: l) = a ++ x ++ List.intercalate x (b :: l) := by
  simp [List.intercalate, List.intersperse_cons_cons, List.flatten]

theorem not_mem_intercalate_single {x sep : Char} {ls : List Line} (hx : x ≠ sep)
    (h : ∀ l ∈ ls, x ∉ l) : x ∉ List.intercalate [sep] ls := by
  induction ls with
  | nil => simp [List.intercalate]
  | cons a t ih =>
    cases t with
    | nil => simpa [List.intercalate] using h a (by simp)
    | cons b t2 =>
      rw [intercalate_cons_cons]
      intro hmem
      rcases List.mem_append.mp hmem with h1 | h2
      · rcases List.mem_append.mp h1 with h3 | h4
        · exact h a (by simp) h3
        · simp only [List.mem_singleton] at h4
          exact hx h4
      · exact ih (fun l hl => h l (List.mem_cons_of_mem a hl)) h2

/-- C9: for a dataset whose fields contain neither the delimiter nor a
newline, serializing to the delimited wire format (header of comma-separated
column names, one comma-separated line per row) and re-parsing by splitting on
newlines and commas reconstructs the column names and row values exactly. -/
theorem c9_staging_round_trip (cols : List Line) (rows : List (List Line))
    (hc : cols ≠ [])
    (hcf : ∀ f ∈ cols, ',' ∉ f ∧ '\n' ∉ f)
    (hrf : ∀ r ∈ rows, r ≠ [] ∧ ∀ f ∈ r, ',' ∉ f ∧ '\n' ∉ f) :
    parse_csv (to_csv cols rows) = (cols, rows) := by
  unfold to_csv parse_csv
  have hlines : ∀ l ∈ (List.intercalate [','] cols
      :: rows.map (fun r => List.intercalate [','] r)), '\n' ∉ l := by
    intro l hl
    rcases List.mem_cons.mp hl with h1 | h2
    · subst h1
      exact not_mem_intercalate_single (by decide) (fun f hf => (hcf f hf).2)
    · rcases List.mem_map.mp h2 with ⟨r, hr, hrl⟩
      subst hrl
      exact not_mem_intercalate_single (by decide) (fun f hf => ((hrf r hr).2 f hf).2)
  rw [List.splitOn_intercalate _ '\n' hlines (by simp)]
  rw [List.map_cons, List.splitOn_intercalate _ ',' (fun f hf => (hcf f hf).1) hc,
    List.map_map]
  have hrows : rows.map ((fun l => l.splitOn ',') ∘ fun r => List.intercalate [','] r)
      = rows.map id :=
    List.map_congr_left (fun r hr => by
      simpa using List.splitOn_intercalate _ ',' (fun f hf => ((hrf r hr).2 f hf).1) (hrf r hr).1)
  rw [hrows, List.map_id]

/-- Witness for C9 at a concrete two-column dataset with an empty field. -/
theorem c9_staging_round_trip_witness :
    parse_csv (to_csv ["id".data, "name".data] [["1".data, "ab".data], ["2".data, [] ]])
      = (["id".data, "name".data], [["1".data, "ab".data], ["2".data, [] ]]) :=
  c9_staging_round_trip ["id".data, "name".data] [["1".data, "ab".data], ["2".data, [] ]]
    (by decide) (by decide) (by decide)

/-! ### C3: form of the COPY statement -/

/-- C3: reading the dedented COPY statement line by line modulo leading
indentation (SQL is whitespace-insensitive and the dedent step leaves an
8-space indent on the template lines and none on the joined option lines), the
statement built by `copy` consists exactly of `COPY <schema>.<table>`, then
`FROM '<bucket>/<key>'`, then the option strings one per line (joined on
newlines), then `ACCESS_KEY_ID '<key>'` and `SECRET_ACCESS_KEY '<secret>'`;
and with the default option set the option lines are exactly the clauses for
header skipping, CSV format, comma delimiter, empty-field-as-NULL, and lenient
automatic date/time parsing.  The hypotheses require the interpolated
fragments to be newline-free (so the line embedding of the f-string is
faithful) and each option string to be non-empty and not to start with
whitespace, as every shipped option is. -/
theorem c3_copy_statement_form (schema table_name aws_bucket_name aws_bucket_path
      aws_access_key aws_secret_key : String) (q : String) (qs : List String)
    (hargs : ∀ a ∈ q :: qs,
      a.data ≠ [] ∧ a.data.takeWhile isWSChar = [] ∧ '\n' ∉ a.data)
    (_hnl : ∀ s ∈ [schema, table_name, aws_bucket_name, aws_bucket_path,
      aws_access_key, aws_secret_key], '\n' ∉ s.data) :
    ((dedent (fstringCopyLines schema table_name aws_bucket_name aws_bucket_path
        (q :: qs) aws_access_key aws_secret_key)).map trimLeft
      = [[], ("COPY " ++ schema ++ "." ++ table_name).data,
          ("FROM '" ++ aws_bucket_name ++ "/" ++ aws_bucket_path ++ "'").data]
        ++ (q :: qs).map String.data
        ++ [("ACCESS_KEY_ID '" ++ aws_access_key ++ "'").data,
            ("SECRET_ACCESS_KEY '" ++ aws_secret_key ++ "'").data, []])
    ∧ ((dedent (fstringCopyLines schema table_name aws_bucket_name aws_bucket_path
        DEFAULT_QUERY_ARGS aws_access_key aws_secret_key)).map trimLeft
      = [[], ("COPY " ++ schema ++ "." ++ table_name).data,
          ("FROM '" ++ aws_bucket_name ++ "/" ++ aws_bucket_path ++ "'").data]
        ++ ["IGNOREHEADER 1".data, "FORMAT AS CSV".data, "DELIMITER ','".data,
            "EMPTYASNULL".data, "ACCEPTANYDATE".data, "DATEFORMAT 'auto'".data,
            "TIMEFORMAT 'auto'".data]
        ++ [("ACCESS_KEY_ID '" ++ aws_access_key ++ "'").data,
            ("SECRET_ACCESS_KEY '" ++ aws_secret_key ++ "'").data, []]) := by
  constructor
  · exact copy_query_trimmed_lines schema table_name aws_bucket_name aws_bucket_path
      aws_access_key aws_secret_key q qs hargs
  · exact copy_query_trimmed_lines schema table_name aws_bucket_name aws_bucket_path
      aws_access_key aws_secret_key "IGNOREHEADER 1"
      ["FORMAT AS CSV", "DELIMITER ','", "EMPTYASNULL", "ACCEPTANYDATE",
       "DATEFORMAT 'auto'", "TIMEFORMAT 'auto'"] (by decide)

/-- Witness for C3 at concrete identifiers, credentials and the default option
list. -/
theorem c3_copy_statement_form_witness :
    (dedent (fstringCopyLines "sch" "tbl" "bkt" "pth" DEFAULT_QUERY_ARGS "AK" "SK")).map
        trimLeft
      = [[], ("COPY " ++ "sch" ++ "." ++ "tbl").data,
          ("FROM '" ++ "bkt" ++ "/" ++ "pth" ++ "'").data]
        ++ ["IGNOREHEADER 1".data, "FORMAT AS CSV".data, "DELIMITER ','".data,
            "EMPTYASNULL".data, "ACCEPTANYDATE".data, "DATEFORMAT 'auto'".data,
            "TIMEFORMAT 'auto'".data]
        ++ [("ACCESS_KEY_ID '" ++ "AK" ++ "'").data,
            ("SECRET_ACCESS_KEY '" ++ "SK" ++ "'").data, []] :=
  (c3_copy_statement_form "sch" "tbl" "bkt" "pth" "AK" "SK" "IGNOREHEADER 1"
    ["FORMAT AS CSV", "DELIMITER ','", "EMPTYASNULL", "ACCEPTANYDATE",
     "DATEFORMAT 'auto'", "TIMEFORMAT 'auto'"] (by decide) (by decide)).2

end Pandas2Redshift
